import Mathlib

/-!
# ecl_linear_algebra: the Eigen module loaders `dense.hpp` and `qr.hpp`

The two headers consist of preprocessor directives only.  They are embedded
as lists of directives, each tagged with its line number in the source file,
and run by a small interpreter for the conditional-inclusion fragment of the
C preprocessor: a table of object-like definitions, a stack of open
conditionals (kept as two counters) and a log of what the directives did.

The files named by `#include` (`formatters.hpp`, `<Eigen/Dense>`,
`<Eigen/QR>`) are not part of the embedded sources.  Their effect on the
definition table is a parameter (`Env`); include search paths are not
modelled, every `#include` is taken to resolve.
-/

namespace EclLinearAlgebra

/-! ## Definition table -/

/-- Table of object-like definitions: name and replacement text. -/
abbrev Table := List (String × String)

/-- Replacement text of `name`, when `name` is defined. -/
def lookup (name : String) : Table → Option String
  | [] => none
  | (n, v) :: rest => if n = name then some v else lookup name rest

/-- Effect of `#undef name`. -/
def undefine (name : String) : Table → Table
  | [] => []
  | (n, v) :: rest => if n = name then undefine name rest else (n, v) :: undefine name rest

/-- Effect of `#define name value`. -/
def define (name value : String) (t : Table) : Table :=
  (name, value) :: undefine name t

/-! ## Directives and headers -/

/-- Preprocessor directives of the conditional-inclusion fragment. -/
inductive Directive where
  | ifndef (name : String)
  | define (name value : String)
  | undef (name : String)
  | includeQuote (path : String)
  | includeAngle (path : String)
  | error (msg : String)
  | endif
  deriving DecidableEq, Repr

/-- A header: its directives in file order, each with its source line. -/
abbrev Header := List (Nat × Directive)

/-- What a directive did when it was executed. -/
inductive Event where
  | defined (line : Nat) (name value : String) (previous : Option String)
  | undefined (line : Nat) (name : String)
  | included (line : Nat) (path : String)
  | errorDirective (line : Nat) (msg : String)
  | strayEndif (line : Nat)
  | unterminated
  deriving DecidableEq, Repr

/-- Preprocessor state of a translation unit: the definition table and the
log of executed directives. -/
structure PPState where
  table : Table
  log : List Event
  deriving DecidableEq, Repr

/-- Interpreter configuration inside one file: the state, the number of open
conditionals whose group is being processed, and the nesting depth of the
group being skipped (0 when not skipping). -/
structure Config where
  st : PPState
  opened : Nat
  skipping : Nat
  deriving DecidableEq, Repr

/-- Effect of each included file on the definition table. -/
structure Env where
  effect : String → Table → Table

/-- Append an event to the log. -/
def PPState.emit (s : PPState) (e : Event) : PPState :=
  { s with log := s.log ++ [e] }

/-- Execute one directive. -/
def step (env : Env) (c : Config) (ld : Nat × Directive) : Config :=
  if c.skipping = 0 then
    match ld.2 with
    | .ifndef name =>
        if (lookup name c.st.table).isSome then { c with skipping := 1 }
        else { c with opened := c.opened + 1 }
    | .define name value =>
        { c with st :=
            { table := define name value c.st.table,
              log := c.st.log ++ [.defined ld.1 name value (lookup name c.st.table)] } }
    | .undef name =>
        { c with st :=
            { table := undefine name c.st.table,
              log := c.st.log ++ [.undefined ld.1 name] } }
    | .includeQuote path =>
        { c with st :=
            { table := env.effect path c.st.table,
              log := c.st.log ++ [.included ld.1 path] } }
    | .includeAngle path =>
        { c with st :=
            { table := env.effect path c.st.table,
              log := c.st.log ++ [.included ld.1 path] } }
    | .error msg => { c with st := c.st.emit (.errorDirective ld.1 msg) }
    | .endif =>
        if c.opened = 0 then { c with st := c.st.emit (.strayEndif ld.1) }
        else { c with opened := c.opened - 1 }
  else
    match ld.2 with
    | .ifndef _ => { c with skipping := c.skipping + 1 }
    | .endif => { c with skipping := c.skipping - 1 }
    | _ => c

/-- Execute a sequence of directives. -/
def exec (env : Env) (ds : Header) (c : Config) : Config :=
  ds.foldl (step env) c

/-- Configuration on entry to a file. -/
def enter (s : PPState) : Config := { st := s, opened := 0, skipping := 0 }

/-- State at the end of a file; a conditional left open is reported. -/
def leave (c : Config) : PPState :=
  if c.opened = 0 ∧ c.skipping = 0 then c.st else c.st.emit .unterminated

/-- Process a whole header from state `s`. -/
def includeHeader (env : Env) (h : Header) (s : PPState) : PPState :=
  leave (exec env h (enter s))

/-- Process a header `n` times in a row. -/
def includeTimes (env : Env) (h : Header) : Nat → PPState → PPState
  | 0, s => s
  | n + 1, s => includeTimes env h n (includeHeader env h s)

/-- Configuration at the moment the directive on line `line` is reached. -/
def configAtLine (env : Env) (h : Header) (line : Nat) (s : PPState) : Config :=
  exec env (h.filter (fun ld => decide (ld.1 < line))) (enter s)

/-! ## Observations on the log -/

/-- An event is a diagnostic when it is an `#error`, an unbalanced
conditional, or a `#define` of a name already defined with different
replacement text. -/
def Event.isDiagnostic : Event → Bool
  | .defined _ _ value (some old) => decide (old ≠ value)
  | .defined _ _ _ none => false
  | .undefined _ _ => false
  | .included _ _ => false
  | .errorDirective _ _ => true
  | .strayEndif _ => true
  | .unterminated => true

/-- Diagnostics recorded in a log. -/
def diagnostics (log : List Event) : List Event :=
  log.filter Event.isDiagnostic

/-- Event `e` is a `#define` of `name` executed while `name` was defined. -/
def Event.redefines (name : String) : Event → Bool
  | .defined _ n _ (some _) => decide (n = name)
  | _ => false

/-- Event `e` is a `#define` or `#undef` of `name`. -/
def Event.affects (name : String) : Event → Bool
  | .defined _ n _ _ => decide (n = name)
  | .undefined _ n => decide (n = name)
  | _ => false

/-- Paths of the `#include` directives executed, in order. -/
def inclusions (log : List Event) : List String :=
  log.filterMap (fun e => match e with
    | .included _ path => some path
    | _ => none)

/-- Events appended to the log between two states. -/
def emitted (before after : PPState) : List Event :=
  after.log.drop before.log.length

/-! ## The two headers -/

/-- Name of the extension hook read by Eigen. -/
def EIGEN_MATRIXBASE_PLUGIN : String := "EIGEN_MATRIXBASE_PLUGIN"

/-- Replacement text both headers give the hook. -/
def eigen_plugin : String := "<ecl/linear_algebra/eigen_plugin.hpp>"

/-- Include guard of `dense.hpp`. -/
def ECL_LINEAR_ALGEBRA_DENSE_HPP_ : String := "ECL_LINEAR_ALGEBRA_DENSE_HPP_"

/-- Include guard of `qr.hpp`. -/
def ECL_LINEAR_ALGEBRA_QR_HPP_ : String := "ECL_LINEAR_ALGEBRA_QR_HPP_"

/-- The directives of `dense.hpp` with their line numbers. -/
def dense_hpp : Header :=
  [ (12, Directive.ifndef "ECL_LINEAR_ALGEBRA_DENSE_HPP_"),
    (13, Directive.define "ECL_LINEAR_ALGEBRA_DENSE_HPP_" ""),
    (19, Directive.includeQuote "formatters.hpp"),
    (21, Directive.ifndef "EIGEN_MATRIXBASE_PLUGIN"),
    (22, Directive.define "EIGEN_MATRIXBASE_PLUGIN" "<ecl/linear_algebra/eigen_plugin.hpp>"),
    (23, Directive.endif),
    (25, Directive.includeAngle "Eigen/Dense"),
    (27, Directive.endif) ]

/-- The directives of `qr.hpp` with their line numbers. -/
def qr_hpp : Header :=
  [ (12, Directive.ifndef "ECL_LINEAR_ALGEBRA_QR_HPP_"),
    (13, Directive.define "ECL_LINEAR_ALGEBRA_QR_HPP_" ""),
    (19, Directive.includeQuote "formatters.hpp"),
    (21, Directive.ifndef "EIGEN_MATRIXBASE_PLUGIN"),
    (22, Directive.define "EIGEN_MATRIXBASE_PLUGIN" "<ecl/linear_algebra/eigen_plugin.hpp>"),
    (23, Directive.endif),
    (25, Directive.includeAngle "Eigen/QR"),
    (27, Directive.endif) ]

/-! ## Assumptions on the included files -/

/-- The file at `path` leaves an existing definition of `name` as it is. -/
def Env.keeps (env : Env) (path name : String) : Prop :=
  ∀ t v, lookup name t = some v → lookup name (env.effect path t) = some v

/-- The file at `path` neither defines, redefines nor undefines `name`. -/
def Env.preserves (env : Env) (path name : String) : Prop :=
  ∀ t, lookup name (env.effect path t) = lookup name t

/-- An environment in which `formatters.hpp` and the Eigen modules define
their own include guards and nothing else. -/
def sampleEnv : Env where
  effect := fun path t =>
    if path = "formatters.hpp" then define "ECL_LINEAR_ALGEBRA_FORMATTERS_HPP_" "" t
    else if path = "Eigen/Dense" then define "EIGEN_DENSE_MODULE_H" "" t
    else if path = "Eigen/QR" then define "EIGEN_QR_MODULE_H" "" t
    else t

/-- The empty starting state of a translation unit. -/
def emptyState : PPState := { table := [], log := [] }

/-- The two loaders of the package. -/
inductive Loader where
  | dense
  | qr
  deriving DecidableEq, Repr

/-- Directives of a loader. -/
def Loader.header : Loader → Header
  | .dense => dense_hpp
  | .qr => qr_hpp

/-- Include guard of a loader (lines 12 and 13). -/
def Loader.guard : Loader → String
  | .dense => ECL_LINEAR_ALGEBRA_DENSE_HPP_
  | .qr => ECL_LINEAR_ALGEBRA_QR_HPP_

/-- Eigen module a loader includes (line 25). -/
def Loader.module : Loader → String
  | .dense => "Eigen/Dense"
  | .qr => "Eigen/QR"

/-- Process header `first`, then header `second`. -/
def includeBoth (env : Env) (first second : Header) (s : PPState) : PPState :=
  includeHeader env second (includeHeader env first s)

/-- Header `h` contains a `#define` of `name`. -/
def definesName (h : Header) (name : String) : Bool :=
  h.any (fun ld => match ld.2 with
    | .define n _ => decide (n = name)
    | _ => false)

/-- The included files leave both include guards alone. -/
def Env.respectsGuards (env : Env) : Prop :=
  ∀ p ∈ ["formatters.hpp", "Eigen/Dense", "Eigen/QR"],
    env.preserves p ECL_LINEAR_ALGEBRA_DENSE_HPP_ ∧ env.preserves p ECL_LINEAR_ALGEBRA_QR_HPP_

/-- An environment in which the included files leave the table alone. -/
def inertEnv : Env where
  effect := fun _ t => t

/-- State in which both include guards are defined and the hook is not: the
table reached by including both headers and then undefining the hook. -/
def guardsOnlyState : PPState :=
  { table := [("ECL_LINEAR_ALGEBRA_QR_HPP_", ""), ("ECL_LINEAR_ALGEBRA_DENSE_HPP_", "")],
    log := [] }

/-- State in which another plugin was registered before the loader runs. -/
def otherPluginState : PPState :=
  { table := [("EIGEN_MATRIXBASE_PLUGIN", "<my/matrix_plugin.hpp>")], log := [] }

/-- Variant of `dense.hpp` without the `#ifndef` around line 22; used only
to show that the interpreter reports a conflicting redefinition. -/
def denseUnchecked : Header :=
  [ (12, Directive.ifndef "ECL_LINEAR_ALGEBRA_DENSE_HPP_"),
    (13, Directive.define "ECL_LINEAR_ALGEBRA_DENSE_HPP_" ""),
    (19, Directive.includeQuote "formatters.hpp"),
    (22, Directive.define "EIGEN_MATRIXBASE_PLUGIN" "<ecl/linear_algebra/eigen_plugin.hpp>"),
    (25, Directive.includeAngle "Eigen/Dense"),
    (27, Directive.endif) ]

/-- Common shape of the two headers: they differ in the guard name and in
the Eigen module only. -/
def loader (guard module : String) : Header :=
  [ (12, Directive.ifndef guard),
    (13, Directive.define guard ""),
    (19, Directive.includeQuote "formatters.hpp"),
    (21, Directive.ifndef EIGEN_MATRIXBASE_PLUGIN),
    (22, Directive.define EIGEN_MATRIXBASE_PLUGIN eigen_plugin),
    (23, Directive.endif),
    (25, Directive.includeAngle module),
    (27, Directive.endif) ]

/-- Table when line 21 of a loader is reached with the guard undefined. -/
def tableAt21 (env : Env) (guard : String) (t : Table) : Table :=
  env.effect "formatters.hpp" (define guard "" t)

/-- Table when line 25 of a loader is reached with the guard undefined. -/
def tableAt25 (env : Env) (guard : String) (t : Table) : Table :=
  if (lookup EIGEN_MATRIXBASE_PLUGIN (tableAt21 env guard t)).isSome then tableAt21 env guard t
  else define EIGEN_MATRIXBASE_PLUGIN eigen_plugin (tableAt21 env guard t)

/-- Events a loader appends when its guard is undefined. -/
def loaderEvents (env : Env) (guard module : String) (t : Table) : List Event :=
  [.defined 13 guard "" none, .included 19 "formatters.hpp"] ++
    (if (lookup EIGEN_MATRIXBASE_PLUGIN (tableAt21 env guard t)).isSome then []
     else [.defined 22 EIGEN_MATRIXBASE_PLUGIN eigen_plugin none]) ++
    [.included 25 module]

/-! ## Lemmas on the definition table -/

theorem lookup_undefine_self (n : String) (t : Table) : lookup n (undefine n t) = none := by
  induction t with
  | nil => rfl
  | cons e rest ih =>
    obtain ⟨a, v⟩ := e
    by_cases h : a = n
    · simp [undefine, h, ih]
    · simp [undefine, h, lookup, ih]

theorem lookup_undefine_ne {a n : String} (h : a ≠ n) (t : Table) :
    lookup n (undefine a t) = lookup n t := by
  induction t with
  | nil => rfl
  | cons e rest ih =>
    obtain ⟨b, v⟩ := e
    by_cases hb : b = a
    · have hbn : b ≠ n := by rw [hb]; exact h
      simp [undefine, hb, lookup, ih, h]
    · by_cases hn : b = n
      · have hna : ¬ n = a := fun e => h e.symm
        simp [undefine, lookup, hn, hna]
      · simp [undefine, hb, lookup, hn, ih]

theorem lookup_define_self (n v : String) (t : Table) : lookup n (define n v t) = some v := by
  simp [define, lookup]

theorem lookup_define_ne {a n : String} (h : a ≠ n) (v : String) (t : Table) :
    lookup n (define a v t) = lookup n t := by
  simp [define, lookup, h, lookup_undefine_ne h]

/-! ## Closed forms for a loader -/

theorem dense_hpp_eq : dense_hpp = loader ECL_LINEAR_ALGEBRA_DENSE_HPP_ "Eigen/Dense" := rfl

theorem qr_hpp_eq : qr_hpp = loader ECL_LINEAR_ALGEBRA_QR_HPP_ "Eigen/QR" := rfl

theorem include_guarded (env : Env) (g m : String) (s : PPState)
    (hg : (lookup g s.table).isSome = true) : includeHeader env (loader g m) s = s := by
  simp [includeHeader, loader, exec, step, enter, leave, hg]

theorem include_fresh (env : Env) (g m : String) (s : PPState)
    (hg : lookup g s.table = none) :
    includeHeader env (loader g m) s =
      { table := env.effect m (tableAt25 env g s.table),
        log := s.log ++ loaderEvents env g m s.table } := by
  by_cases hh : (lookup EIGEN_MATRIXBASE_PLUGIN (tableAt21 env g s.table)).isSome = true
  · have hh2 := hh
    simp only [tableAt21] at hh2
    simp [includeHeader, loader, exec, step, enter, leave, hg, tableAt25, loaderEvents, hh, hh2,
      tableAt21]
  · have hh2 : lookup EIGEN_MATRIXBASE_PLUGIN
        (env.effect "formatters.hpp" (define g "" s.table)) = none := by
      simpa [tableAt21] using hh
    simp [includeHeader, loader, exec, step, enter, leave, hg, tableAt25, loaderEvents, hh2,
      tableAt21]

theorem Loader.header_eq (h : Loader) : h.header = loader h.guard h.module := by
  cases h <;> rfl

theorem Loader.guard_ne_hook (h : Loader) : h.guard ≠ EIGEN_MATRIXBASE_PLUGIN := by
  cases h <;> decide

theorem hook_ne_guard (h : Loader) : EIGEN_MATRIXBASE_PLUGIN ≠ h.guard := by
  cases h <;> decide

theorem config_at21_fresh (env : Env) (g m : String) (s : PPState)
    (hg : lookup g s.table = none) :
    configAtLine env (loader g m) 21 s =
      { st := { table := tableAt21 env g s.table,
                log := s.log ++ [.defined 13 g "" none, .included 19 "formatters.hpp"] },
        opened := 1, skipping := 0 } := by
  simp [configAtLine, loader, exec, step, enter, hg, tableAt21]

theorem config_at25_fresh (env : Env) (g m : String) (s : PPState)
    (hg : lookup g s.table = none) :
    (configAtLine env (loader g m) 25 s).skipping = 0 ∧
      (configAtLine env (loader g m) 25 s).st.table = tableAt25 env g s.table := by
  by_cases hh : (lookup EIGEN_MATRIXBASE_PLUGIN (tableAt21 env g s.table)).isSome = true
  · have hh2 := hh
    simp only [tableAt21] at hh2
    simp [configAtLine, loader, exec, step, enter, hg, tableAt25, hh, hh2, tableAt21]
  · have hh2 : lookup EIGEN_MATRIXBASE_PLUGIN
        (env.effect "formatters.hpp" (define g "" s.table)) = none := by
      simpa [tableAt21] using hh
    simp [configAtLine, loader, exec, step, enter, hg, tableAt25, hh2, tableAt21]

theorem config_guarded (env : Env) (g m : String) (s : PPState)
    (hg : (lookup g s.table).isSome = true) :
    (configAtLine env (loader g m) 21 s).st = s ∧ (configAtLine env (loader g m) 25 s).st = s := by
  simp [configAtLine, loader, exec, step, enter, hg]

theorem lookup_hook_at25 (env : Env) (g : String) (t : Table) :
    lookup EIGEN_MATRIXBASE_PLUGIN (tableAt25 env g t) =
      some ((lookup EIGEN_MATRIXBASE_PLUGIN (tableAt21 env g t)).getD eigen_plugin) := by
  unfold tableAt25
  cases hh : lookup EIGEN_MATRIXBASE_PLUGIN (tableAt21 env g t) with
  | none => simp [lookup_define_self]
  | some v => simp [hh]

theorem lookup_other_at25 (env : Env) (g n : String) (t : Table)
    (hn : EIGEN_MATRIXBASE_PLUGIN ≠ n) :
    lookup n (tableAt25 env g t) = lookup n (tableAt21 env g t) := by
  unfold tableAt25
  split
  · rfl
  · exact lookup_define_ne hn _ _

theorem emitted_append (s : PPState) (t : Table) (evs : List Event) :
    emitted s { table := t, log := s.log ++ evs } = evs := by
  simp [emitted]

theorem emitted_self (s : PPState) : emitted s s = [] := by
  simp [emitted]

/-! ## Facts about the sample environment -/

theorem Env.preserves.keeps {env : Env} {p n : String} (h : env.preserves p n) :
    env.keeps p n := by
  intro t v hv
  rw [h t]
  exact hv

theorem sampleEnv_preserves (p n : String) (h1 : "ECL_LINEAR_ALGEBRA_FORMATTERS_HPP_" ≠ n)
    (h2 : "EIGEN_DENSE_MODULE_H" ≠ n) (h3 : "EIGEN_QR_MODULE_H" ≠ n) :
    sampleEnv.preserves p n := by
  intro t
  simp only [sampleEnv]
  split
  · exact lookup_define_ne h1 _ _
  · split
    · exact lookup_define_ne h2 _ _
    · split
      · exact lookup_define_ne h3 _ _
      · rfl

theorem sampleEnv_preserves_hook (p : String) :
    sampleEnv.preserves p EIGEN_MATRIXBASE_PLUGIN :=
  sampleEnv_preserves p _ (by decide) (by decide) (by decide)

theorem sampleEnv_preserves_guard (p : String) (h : Loader) :
    sampleEnv.preserves p h.guard := by
  cases h
  · exact sampleEnv_preserves p _ (by decide) (by decide) (by decide)
  · exact sampleEnv_preserves p _ (by decide) (by decide) (by decide)

theorem sampleEnv_respectsGuards : sampleEnv.respectsGuards := by
  intro p _
  exact ⟨sampleEnv_preserves_guard p .dense, sampleEnv_preserves_guard p .qr⟩

/-! ## Shared facts about one inclusion -/

theorem lookup_hook_at21 (h : Loader) (env : Env) (t : Table)
    (hf : env.preserves "formatters.hpp" EIGEN_MATRIXBASE_PLUGIN) :
    lookup EIGEN_MATRIXBASE_PLUGIN (tableAt21 env h.guard t) =
      lookup EIGEN_MATRIXBASE_PLUGIN t := by
  unfold tableAt21
  rw [hf, lookup_define_ne h.guard_ne_hook]

theorem hook_after_fresh (h : Loader) (env : Env) (s : PPState)
    (hg : lookup h.guard s.table = none)
    (hf : env.preserves "formatters.hpp" EIGEN_MATRIXBASE_PLUGIN)
    (hm : env.keeps h.module EIGEN_MATRIXBASE_PLUGIN) :
    lookup EIGEN_MATRIXBASE_PLUGIN (includeHeader env h.header s).table =
      some ((lookup EIGEN_MATRIXBASE_PLUGIN s.table).getD eigen_plugin) := by
  rw [Loader.header_eq, include_fresh env _ _ s hg]
  apply hm
  rw [lookup_hook_at25, lookup_hook_at21 h env _ hf]

theorem hook_after_set (h : Loader) (env : Env) (s : PPState) (v : String)
    (hv : lookup EIGEN_MATRIXBASE_PLUGIN s.table = some v)
    (hf : env.keeps "formatters.hpp" EIGEN_MATRIXBASE_PLUGIN)
    (hm : env.keeps h.module EIGEN_MATRIXBASE_PLUGIN) :
    lookup EIGEN_MATRIXBASE_PLUGIN (includeHeader env h.header s).table = some v := by
  rw [Loader.header_eq]
  cases hg : lookup h.guard s.table with
  | some w =>
    rw [include_guarded env _ _ s (by simp [hg])]
    exact hv
  | none =>
    rw [include_fresh env _ _ s hg]
    apply hm
    have h21 : lookup EIGEN_MATRIXBASE_PLUGIN (tableAt21 env h.guard s.table) = some v := by
      apply hf
      rw [lookup_define_ne h.guard_ne_hook]
      exact hv
    rw [lookup_hook_at25, h21]
    rfl

theorem loaderEvents_clean (env : Env) (g m : String) (t : Table) :
    ∀ e ∈ loaderEvents env g m t,
      e.redefines EIGEN_MATRIXBASE_PLUGIN = false ∧ e.isDiagnostic = false := by
  intro e he
  unfold loaderEvents at he
  split at he
  · simp only [List.append_nil, List.cons_append, List.nil_append, List.mem_cons,
      List.mem_singleton, List.mem_nil_iff, or_false] at he
    rcases he with rfl | rfl | rfl <;> exact ⟨rfl, rfl⟩
  · simp only [List.cons_append, List.nil_append, List.mem_cons,
      List.mem_singleton, List.mem_nil_iff, or_false] at he
    rcases he with rfl | rfl | rfl | rfl <;> exact ⟨rfl, rfl⟩

theorem include_log (env : Env) (g m : String) (s : PPState) :
    ∃ evs, (includeHeader env (loader g m) s).log = s.log ++ evs ∧
      ∀ e ∈ evs, e.redefines EIGEN_MATRIXBASE_PLUGIN = false ∧ e.isDiagnostic = false := by
  cases hg : lookup g s.table with
  | some w =>
    rw [include_guarded env _ _ s (by simp [hg])]
    exact ⟨[], by simp, by simp⟩
  | none =>
    rw [include_fresh env _ _ s hg]
    exact ⟨loaderEvents env g m s.table, rfl, loaderEvents_clean env g m s.table⟩

theorem emitted_of_log (s r : PPState) (evs : List Event) (h : r.log = s.log ++ evs) :
    emitted s r = evs := by
  simp [emitted, h]

theorem both_log (env : Env) (a b : Loader) (s : PPState) :
    ∀ e ∈ emitted s (includeBoth env a.header b.header s),
      e.redefines EIGEN_MATRIXBASE_PLUGIN = false ∧ e.isDiagnostic = false := by
  unfold includeBoth
  rw [a.header_eq, b.header_eq]
  obtain ⟨ea, hla, hca⟩ := include_log env a.guard a.module s
  obtain ⟨eb, hlb, hcb⟩ :=
    include_log env b.guard b.module (includeHeader env (loader a.guard a.module) s)
  rw [hla, List.append_assoc] at hlb
  rw [emitted_of_log _ _ _ hlb]
  intro e he
  rcases List.mem_append.mp he with h1 | h2
  · exact hca e h1
  · exact hcb e h2

theorem both_set_hook (a b : Loader) (env : Env) (s : PPState)
    (hh : lookup EIGEN_MATRIXBASE_PLUGIN s.table = none)
    (hg : lookup a.guard s.table = none ∨ lookup b.guard s.table = none)
    (hf : env.preserves "formatters.hpp" EIGEN_MATRIXBASE_PLUGIN)
    (hma : env.keeps a.module EIGEN_MATRIXBASE_PLUGIN)
    (hmb : env.keeps b.module EIGEN_MATRIXBASE_PLUGIN) :
    lookup EIGEN_MATRIXBASE_PLUGIN (includeBoth env a.header b.header s).table =
      some eigen_plugin := by
  unfold includeBoth
  cases hga : lookup a.guard s.table with
  | none =>
    apply hook_after_set b env _ _ _ hf.keeps hmb
    rw [hook_after_fresh a env s hga hf hma, hh]
    rfl
  | some w =>
    have hgb : lookup b.guard s.table = none := by
      rcases hg with h1 | h2
      · rw [hga] at h1; cases h1
      · exact h2
    rw [a.header_eq, include_guarded env _ _ s (by simp [hga]),
      hook_after_fresh b env s hgb hf hmb, hh]
    rfl

/-! ## The hook after one inclusion -/

/-- C1: for `dense.hpp` and `qr.hpp` alike, when the include guard is
undefined on entry and `EIGEN_MATRIXBASE_PLUGIN` is undefined when the
`#ifndef` on line 21 is reached, then after the header has been processed the
hook is defined and its replacement text is exactly
`<ecl/linear_algebra/eigen_plugin.hpp>`, provided the Eigen module included on
line 25 leaves an existing definition of the hook as it is. -/
theorem hook_set_when_unset (h : Loader) (env : Env) (s : PPState)
    (hg : lookup h.guard s.table = none)
    (hh : lookup EIGEN_MATRIXBASE_PLUGIN (configAtLine env h.header 21 s).st.table = none)
    (hm : env.keeps h.module EIGEN_MATRIXBASE_PLUGIN) :
    lookup EIGEN_MATRIXBASE_PLUGIN (includeHeader env h.header s).table = some eigen_plugin := by
  rw [Loader.header_eq] at hh ⊢
  rw [config_at21_fresh env _ _ s hg] at hh
  rw [include_fresh env _ _ s hg]
  apply hm
  rw [lookup_hook_at25]
  simp only at hh
  rw [hh]
  rfl

theorem hook_set_when_unset_witness :
    (lookup Loader.dense.guard emptyState.table = none ∧
      lookup EIGEN_MATRIXBASE_PLUGIN
        (configAtLine sampleEnv Loader.dense.header 21 emptyState).st.table = none ∧
      lookup EIGEN_MATRIXBASE_PLUGIN
        (includeHeader sampleEnv Loader.dense.header emptyState).table = some eigen_plugin) ∧
    (lookup Loader.qr.guard emptyState.table = none ∧
      lookup EIGEN_MATRIXBASE_PLUGIN
        (configAtLine sampleEnv Loader.qr.header 21 emptyState).st.table = none ∧
      lookup EIGEN_MATRIXBASE_PLUGIN
        (includeHeader sampleEnv Loader.qr.header emptyState).table = some eigen_plugin) :=
  ⟨⟨by decide, by decide,
      hook_set_when_unset .dense sampleEnv emptyState (by decide) (by decide)
        (sampleEnv_preserves_hook _).keeps⟩,
    ⟨by decide, by decide,
      hook_set_when_unset .qr sampleEnv emptyState (by decide) (by decide)
        (sampleEnv_preserves_hook _).keeps⟩⟩

/-- C2: for `dense.hpp` and `qr.hpp` alike and every replacement text `v`,
when `EIGEN_MATRIXBASE_PLUGIN` is defined as `v` before the header is
included, it is still defined as `v` afterwards, and no directive of the
header defines or undefines the hook; the included files are taken to leave
an existing definition of the hook as it is. -/
theorem hook_kept_when_set (h : Loader) (env : Env) (s : PPState) (v : String)
    (hv : lookup EIGEN_MATRIXBASE_PLUGIN s.table = some v)
    (hf : env.keeps "formatters.hpp" EIGEN_MATRIXBASE_PLUGIN)
    (hm : env.keeps h.module EIGEN_MATRIXBASE_PLUGIN) :
    lookup EIGEN_MATRIXBASE_PLUGIN (includeHeader env h.header s).table = some v ∧
      ∀ e ∈ emitted s (includeHeader env h.header s),
        e.affects EIGEN_MATRIXBASE_PLUGIN = false := by
  refine ⟨hook_after_set h env s v hv hf hm, ?_⟩
  rw [Loader.header_eq]
  have h21 : lookup EIGEN_MATRIXBASE_PLUGIN (tableAt21 env h.guard s.table) = some v := by
    apply hf
    rw [lookup_define_ne h.guard_ne_hook]
    exact hv
  cases hg : lookup h.guard s.table with
  | some w =>
    rw [include_guarded env _ _ s (by simp [hg])]
    simp [emitted_self]
  | none =>
    rw [include_fresh env _ _ s hg, emitted_append]
    intro e he
    have hne := h.guard_ne_hook
    simp only [loaderEvents, h21, Option.isSome_some, if_true, List.append_nil,
      List.cons_append, List.nil_append, List.mem_cons, List.mem_singleton,
      List.mem_nil_iff, or_false] at he
    rcases he with rfl | rfl | rfl
    · simp [Event.affects, hne]
    · rfl
    · rfl

theorem hook_kept_when_set_witness :
    lookup EIGEN_MATRIXBASE_PLUGIN otherPluginState.table = some "<my/matrix_plugin.hpp>" ∧
      (lookup EIGEN_MATRIXBASE_PLUGIN
          (includeHeader sampleEnv Loader.qr.header otherPluginState).table =
            some "<my/matrix_plugin.hpp>" ∧
        ∀ e ∈ emitted otherPluginState (includeHeader sampleEnv Loader.qr.header otherPluginState),
          e.affects EIGEN_MATRIXBASE_PLUGIN = false) :=
  ⟨by decide,
    hook_kept_when_set .qr sampleEnv otherPluginState "<my/matrix_plugin.hpp>" (by decide)
      (sampleEnv_preserves_hook _).keeps (sampleEnv_preserves_hook _).keeps⟩

/-! ## Repeated inclusion -/

theorem includeTimes_guarded (env : Env) (g m : String) (n : Nat) (s : PPState)
    (hg : (lookup g s.table).isSome = true) : includeTimes env (loader g m) n s = s := by
  induction n with
  | zero => rfl
  | succ k ih =>
    simp only [includeTimes]
    rw [include_guarded env g m s hg]
    exact ih

theorem guard_defined_after (h : Loader) (env : Env) (s : PPState)
    (hf : env.keeps "formatters.hpp" h.guard) (hm : env.keeps h.module h.guard) :
    (lookup h.guard (includeHeader env (loader h.guard h.module) s).table).isSome = true := by
  cases hg : lookup h.guard s.table with
  | some w =>
    rw [include_guarded env _ _ s (by simp [hg])]
    simp [hg]
  | none =>
    rw [include_fresh env _ _ s hg]
    have h25 : lookup h.guard (tableAt25 env h.guard s.table) = some "" := by
      rw [lookup_other_at25 env _ _ _ (hook_ne_guard h)]
      exact hf _ _ (lookup_define_self _ _ _)
    simp [hm _ _ h25]

/-- C3: inclusion is idempotent.  For `dense.hpp` and `qr.hpp` alike, every
starting state and every `n ≥ 1`, processing the header `n` times yields the
same state (definition table and log of executed directives, hence the
sequence of headers pulled in) as processing it once, and one more inclusion
after that changes nothing; the included files are taken to leave an existing
definition of the include guard as it is. -/
theorem inclusion_idempotent (h : Loader) (env : Env) (s : PPState) (n : Nat) (hn : 1 ≤ n)
    (hf : env.keeps "formatters.hpp" h.guard) (hm : env.keeps h.module h.guard) :
    includeTimes env h.header n s = includeHeader env h.header s ∧
      includeHeader env h.header (includeTimes env h.header n s) =
        includeTimes env h.header n s := by
  rw [Loader.header_eq]
  have hdef := guard_defined_after h env s hf hm
  obtain ⟨k, rfl⟩ : ∃ k, n = k + 1 := ⟨n - 1, by omega⟩
  have hk : includeTimes env (loader h.guard h.module) (k + 1) s =
      includeHeader env (loader h.guard h.module) s := by
    simp only [includeTimes]
    exact includeTimes_guarded env _ _ k _ hdef
  refine ⟨hk, ?_⟩
  rw [hk]
  exact include_guarded env _ _ _ hdef

theorem inclusion_idempotent_witness :
    1 ≤ 3 ∧
      (includeTimes sampleEnv Loader.dense.header 3 otherPluginState =
          includeHeader sampleEnv Loader.dense.header otherPluginState ∧
        includeHeader sampleEnv Loader.dense.header
            (includeTimes sampleEnv Loader.dense.header 3 otherPluginState) =
          includeTimes sampleEnv Loader.dense.header 3 otherPluginState) :=
  ⟨by decide,
    inclusion_idempotent .dense sampleEnv otherPluginState 3 (by decide)
      (sampleEnv_preserves_guard _ .dense).keeps (sampleEnv_preserves_guard _ .dense).keeps⟩

/-! ## Both headers in one translation unit -/

/-- The table of `guardsOnlyState` is reached from the empty state by
`dense.hpp`, `qr.hpp` and then `#undef EIGEN_MATRIXBASE_PLUGIN`. -/
theorem guardsOnlyState_reachable :
    undefine EIGEN_MATRIXBASE_PLUGIN (includeBoth inertEnv dense_hpp qr_hpp emptyState).table =
      guardsOnlyState.table := by
  decide

/-- C4, as stated, fails: from a state in which both include guards are
defined and the hook is not, both headers are skipped in either order and the
hook stays undefined. -/
theorem both_skipped_hook_unset :
    lookup EIGEN_MATRIXBASE_PLUGIN guardsOnlyState.table = none ∧
      lookup EIGEN_MATRIXBASE_PLUGIN
        (includeBoth sampleEnv dense_hpp qr_hpp guardsOnlyState).table ≠ some eigen_plugin ∧
      lookup EIGEN_MATRIXBASE_PLUGIN
        (includeBoth sampleEnv qr_hpp dense_hpp guardsOnlyState).table ≠ some eigen_plugin := by
  decide

/-- C4 (amended): including `dense.hpp` and `qr.hpp` in one translation unit,
in either order and from every state, never executes a `#define` of
`EIGEN_MATRIXBASE_PLUGIN` while it is defined; and starting from a state where
the hook is unset and at least one of the two include guards is undefined,
the final hook value is `<ecl/linear_algebra/eigen_plugin.hpp>` for both
orders (the included files being taken not to touch the hook). -/
theorem both_headers_one_hook (env : Env) (s : PPState) :
    (∀ e ∈ emitted s (includeBoth env dense_hpp qr_hpp s),
        e.redefines EIGEN_MATRIXBASE_PLUGIN = false) ∧
      (∀ e ∈ emitted s (includeBoth env qr_hpp dense_hpp s),
        e.redefines EIGEN_MATRIXBASE_PLUGIN = false) ∧
      (lookup EIGEN_MATRIXBASE_PLUGIN s.table = none →
        (lookup ECL_LINEAR_ALGEBRA_DENSE_HPP_ s.table = none ∨
          lookup ECL_LINEAR_ALGEBRA_QR_HPP_ s.table = none) →
        env.preserves "formatters.hpp" EIGEN_MATRIXBASE_PLUGIN →
        env.keeps "Eigen/Dense" EIGEN_MATRIXBASE_PLUGIN →
        env.keeps "Eigen/QR" EIGEN_MATRIXBASE_PLUGIN →
        lookup EIGEN_MATRIXBASE_PLUGIN (includeBoth env dense_hpp qr_hpp s).table =
            some eigen_plugin ∧
          lookup EIGEN_MATRIXBASE_PLUGIN (includeBoth env qr_hpp dense_hpp s).table =
            some eigen_plugin) := by
  refine ⟨fun e he => (both_log env .dense .qr s e he).1,
    fun e he => (both_log env .qr .dense s e he).1, ?_⟩
  intro hh hg hf hd hq
  exact ⟨both_set_hook .dense .qr env s hh hg hf hd hq,
    both_set_hook .qr .dense env s hh hg.symm hf hq hd⟩

theorem both_headers_one_hook_witness :
    lookup EIGEN_MATRIXBASE_PLUGIN emptyState.table = none ∧
      (lookup ECL_LINEAR_ALGEBRA_DENSE_HPP_ emptyState.table = none ∨
        lookup ECL_LINEAR_ALGEBRA_QR_HPP_ emptyState.table = none) ∧
      lookup EIGEN_MATRIXBASE_PLUGIN (includeBoth sampleEnv dense_hpp qr_hpp emptyState).table =
        some eigen_plugin ∧
      lookup EIGEN_MATRIXBASE_PLUGIN (includeBoth sampleEnv qr_hpp dense_hpp emptyState).table =
        some eigen_plugin :=
  ⟨by decide, by decide,
    (both_headers_one_hook sampleEnv emptyState).2.2 (by decide) (by decide)
      (sampleEnv_preserves_hook _) (sampleEnv_preserves_hook _).keeps
      (sampleEnv_preserves_hook _).keeps⟩

/-! ## Drop-in replacement and ordering -/

theorem inclusions_loaderEvents (env : Env) (g m : String) (t : Table) :
    inclusions (loaderEvents env g m t) = ["formatters.hpp", m] := by
  unfold loaderEvents
  split <;> simp [inclusions]

/-- C5, as stated, fails: with the guard undefined but another plugin already
registered, `dense.hpp` includes `<Eigen/Dense>` and leaves the hook on the
other plugin. -/
theorem other_plugin_survives_dense :
    lookup ECL_LINEAR_ALGEBRA_DENSE_HPP_ otherPluginState.table = none ∧
      "Eigen/Dense" ∈ inclusions (emitted otherPluginState
        (includeHeader sampleEnv dense_hpp otherPluginState)) ∧
      lookup EIGEN_MATRIXBASE_PLUGIN (includeHeader sampleEnv dense_hpp otherPluginState).table =
        some "<my/matrix_plugin.hpp>" ∧
      lookup EIGEN_MATRIXBASE_PLUGIN (includeHeader sampleEnv dense_hpp otherPluginState).table ≠
        some eigen_plugin := by
  decide

/-- C5 (amended): for `dense.hpp` and `qr.hpp` alike, from every state in
which the header's include guard is undefined and the hook, when line 21 is
reached, is undefined or already `<ecl/linear_algebra/eigen_plugin.hpp>`,
after the inclusion the header's Eigen module has been included and the hook
is `<ecl/linear_algebra/eigen_plugin.hpp>` (the Eigen module being taken to
leave an existing definition of the hook as it is). -/
theorem drop_in_with_plugin (h : Loader) (env : Env) (s : PPState)
    (hg : lookup h.guard s.table = none)
    (hh : lookup EIGEN_MATRIXBASE_PLUGIN (configAtLine env h.header 21 s).st.table = none ∨
      lookup EIGEN_MATRIXBASE_PLUGIN (configAtLine env h.header 21 s).st.table =
        some eigen_plugin)
    (hm : env.keeps h.module EIGEN_MATRIXBASE_PLUGIN) :
    h.module ∈ inclusions (emitted s (includeHeader env h.header s)) ∧
      lookup EIGEN_MATRIXBASE_PLUGIN (includeHeader env h.header s).table =
        some eigen_plugin := by
  rw [Loader.header_eq] at hh ⊢
  rw [config_at21_fresh env _ _ s hg] at hh
  simp only at hh
  rw [include_fresh env _ _ s hg, emitted_append, inclusions_loaderEvents]
  refine ⟨by simp, ?_⟩
  apply hm
  rw [lookup_hook_at25]
  rcases hh with h1 | h1 <;> rw [h1] <;> rfl

theorem drop_in_with_plugin_witness :
    lookup Loader.qr.guard emptyState.table = none ∧
      (lookup EIGEN_MATRIXBASE_PLUGIN
          (configAtLine sampleEnv Loader.qr.header 21 emptyState).st.table = none ∨
        lookup EIGEN_MATRIXBASE_PLUGIN
          (configAtLine sampleEnv Loader.qr.header 21 emptyState).st.table =
            some eigen_plugin) ∧
      (Loader.qr.module ∈
          inclusions (emitted emptyState (includeHeader sampleEnv Loader.qr.header emptyState)) ∧
        lookup EIGEN_MATRIXBASE_PLUGIN
          (includeHeader sampleEnv Loader.qr.header emptyState).table = some eigen_plugin) :=
  ⟨by decide, by decide,
    drop_in_with_plugin .qr sampleEnv emptyState (by decide) (by decide)
      (sampleEnv_preserves_hook _).keeps⟩

/-- C6: for `dense.hpp` and `qr.hpp` alike, in every execution whose include
guard is initially undefined, line 25 holds the `#include` of the header's
Eigen module, that line is reached in an active group, and
`EIGEN_MATRIXBASE_PLUGIN` is defined at that moment, whatever `formatters.hpp`
did to the definition table. -/
theorem hook_defined_before_module (h : Loader) (env : Env) (s : PPState)
    (hg : lookup h.guard s.table = none) :
    List.lookup 25 h.header = some (.includeAngle h.module) ∧
      (configAtLine env h.header 25 s).skipping = 0 ∧
      (lookup EIGEN_MATRIXBASE_PLUGIN (configAtLine env h.header 25 s).st.table).isSome =
        true := by
  refine ⟨by cases h <;> decide, ?_⟩
  rw [Loader.header_eq]
  obtain ⟨h1, h2⟩ := config_at25_fresh env h.guard h.module s hg
  refine ⟨h1, ?_⟩
  rw [h2, lookup_hook_at25]
  rfl

theorem hook_defined_before_module_witness :
    lookup Loader.dense.guard emptyState.table = none ∧
      (List.lookup 25 Loader.dense.header = some (.includeAngle Loader.dense.module) ∧
        (configAtLine sampleEnv Loader.dense.header 25 emptyState).skipping = 0 ∧
        (lookup EIGEN_MATRIXBASE_PLUGIN
          (configAtLine sampleEnv Loader.dense.header 25 emptyState).st.table).isSome = true) :=
  ⟨by decide, hook_defined_before_module .dense sampleEnv emptyState (by decide)⟩

/-! ## Diagnostics -/

theorem diagnostics_eq_nil (evs : List Event) (h : ∀ e ∈ evs, e.isDiagnostic = false) :
    diagnostics evs = [] := by
  unfold diagnostics
  rw [List.filter_eq_nil_iff]
  intro e he
  simp [h e he]

/-- The interpreter does report a conflicting redefinition: without the
`#ifndef` of line 21 the `#define` of line 22 would be diagnosed when another
plugin is registered. -/
theorem unchecked_define_reported :
    diagnostics (emitted otherPluginState
        (includeHeader sampleEnv denseUnchecked otherPluginState)) =
      [.defined 22 "EIGEN_MATRIXBASE_PLUGIN" "<ecl/linear_algebra/eigen_plugin.hpp>"
        (some "<my/matrix_plugin.hpp>")] := by
  decide

/-- C7: for `dense.hpp` and `qr.hpp` alike and every starting state (hook
unset, set to the plugin or set to anything else; guard defined or not),
processing the header records no diagnostic of its own (no `#error`, no
conflicting redefinition, no unbalanced conditional), and a hook value found
at line 21 is the hook value at line 25: a conflicting hook is kept, not
reported. -/
theorem loader_raises_no_diagnostic (h : Loader) (env : Env) (s : PPState) :
    diagnostics (emitted s (includeHeader env h.header s)) = [] ∧
      ∀ v, lookup EIGEN_MATRIXBASE_PLUGIN (configAtLine env h.header 21 s).st.table = some v →
        lookup EIGEN_MATRIXBASE_PLUGIN (configAtLine env h.header 25 s).st.table = some v := by
  rw [Loader.header_eq]
  constructor
  · obtain ⟨evs, hl, hc⟩ := include_log env h.guard h.module s
    rw [emitted_of_log _ _ _ hl]
    exact diagnostics_eq_nil evs (fun e he => (hc e he).2)
  · intro v hv
    cases hg : lookup h.guard s.table with
    | some w =>
      obtain ⟨h1, h2⟩ := config_guarded env h.guard h.module s (by simp [hg])
      rw [h1] at hv
      rw [h2]
      exact hv
    | none =>
      rw [config_at21_fresh env _ _ s hg] at hv
      simp only at hv
      rw [(config_at25_fresh env h.guard h.module s hg).2, lookup_hook_at25, hv]
      rfl

theorem loader_raises_no_diagnostic_witness :
    lookup EIGEN_MATRIXBASE_PLUGIN
        (configAtLine sampleEnv Loader.dense.header 21 otherPluginState).st.table =
          some "<my/matrix_plugin.hpp>" ∧
      diagnostics (emitted otherPluginState
        (includeHeader sampleEnv Loader.dense.header otherPluginState)) = [] ∧
      lookup EIGEN_MATRIXBASE_PLUGIN
        (configAtLine sampleEnv Loader.dense.header 25 otherPluginState).st.table =
          some "<my/matrix_plugin.hpp>" :=
  ⟨by decide, (loader_raises_no_diagnostic .dense sampleEnv otherPluginState).1,
    (loader_raises_no_diagnostic .dense sampleEnv otherPluginState).2 _ (by decide)⟩

/-! ## Independence of the two include guards -/

theorem Env.respectsGuards.formatters {env : Env} (he : env.respectsGuards) (h : Loader) :
    env.preserves "formatters.hpp" h.guard := by
  cases h
  · exact (he _ (by simp)).1
  · exact (he _ (by simp)).2

theorem Env.respectsGuards.module {env : Env} (he : env.respectsGuards) (a h : Loader) :
    env.preserves a.module h.guard := by
  cases a <;> cases h
  · exact (he "Eigen/Dense" (by simp)).1
  · exact (he "Eigen/Dense" (by simp)).2
  · exact (he "Eigen/QR" (by simp)).1
  · exact (he "Eigen/QR" (by simp)).2

theorem lookup_guard_after_fresh (a h : Loader) (env : Env) (s : PPState)
    (ha : lookup a.guard s.table = none) (he : env.respectsGuards) :
    lookup h.guard (includeHeader env a.header s).table =
      lookup h.guard (define a.guard "" s.table) := by
  rw [a.header_eq, include_fresh env _ _ s ha]
  simp only
  rw [he.module a h, lookup_other_at25 env _ _ _ (hook_ne_guard h)]
  unfold tableAt21
  rw [he.formatters h]

theorem both_fresh (a b : Loader) (hab : a.guard ≠ b.guard) (env : Env) (s : PPState)
    (ha : lookup a.guard s.table = none) (hb : lookup b.guard s.table = none)
    (he : env.respectsGuards) :
    inclusions (emitted s (includeBoth env a.header b.header s)) =
        ["formatters.hpp", a.module, "formatters.hpp", b.module] ∧
      (lookup a.guard (includeBoth env a.header b.header s).table).isSome = true ∧
      (lookup b.guard (includeBoth env a.header b.header s).table).isSome = true := by
  unfold includeBoth
  have hb1 : lookup b.guard (includeHeader env a.header s).table = none := by
    rw [lookup_guard_after_fresh a b env s ha he, lookup_define_ne hab]
    exact hb
  have ha1 : lookup a.guard (includeHeader env a.header s).table = some "" := by
    rw [lookup_guard_after_fresh a a env s ha he]
    exact lookup_define_self _ _ _
  have ha2 := lookup_guard_after_fresh b a env _ hb1 he
  have hb2 := lookup_guard_after_fresh b b env _ hb1 he
  rw [lookup_define_ne (Ne.symm hab), ha1] at ha2
  rw [lookup_define_self] at hb2
  refine ⟨?_, by simp [ha2], by simp [hb2]⟩
  have hl : (includeHeader env b.header (includeHeader env a.header s)).log =
      s.log ++ (loaderEvents env a.guard a.module s.table ++
        loaderEvents env b.guard b.module (includeHeader env a.header s).table) := by
    rw [b.header_eq, include_fresh env _ _ _ hb1]
    simp only
    rw [a.header_eq, include_fresh env _ _ s ha, List.append_assoc]
  rw [emitted_of_log _ _ _ hl]
  unfold inclusions
  rw [List.filterMap_append]
  have h1 := inclusions_loaderEvents env a.guard a.module s.table
  have h2 := inclusions_loaderEvents env b.guard b.module (includeHeader env a.header s).table
  unfold inclusions at h1 h2
  rw [h1, h2]
  rfl

/-- C9: the two headers use distinct include guards and neither contains a
`#define` of the other's guard; from every state with both guards undefined,
including `dense.hpp` and `qr.hpp` in either order executes the `#include` of
`<Eigen/Dense>` and of `<Eigen/QR>` exactly once each and ends with both
guards defined (the included files being taken to leave both guards alone). -/
theorem guards_independent (env : Env) (s : PPState)
    (hd : lookup ECL_LINEAR_ALGEBRA_DENSE_HPP_ s.table = none)
    (hq : lookup ECL_LINEAR_ALGEBRA_QR_HPP_ s.table = none)
    (he : env.respectsGuards) :
    (ECL_LINEAR_ALGEBRA_DENSE_HPP_ ≠ ECL_LINEAR_ALGEBRA_QR_HPP_ ∧
      definesName dense_hpp ECL_LINEAR_ALGEBRA_QR_HPP_ = false ∧
      definesName qr_hpp ECL_LINEAR_ALGEBRA_DENSE_HPP_ = false) ∧
    (inclusions (emitted s (includeBoth env dense_hpp qr_hpp s)) =
        ["formatters.hpp", "Eigen/Dense", "formatters.hpp", "Eigen/QR"] ∧
      (inclusions (emitted s (includeBoth env dense_hpp qr_hpp s))).count "Eigen/Dense" = 1 ∧
      (inclusions (emitted s (includeBoth env dense_hpp qr_hpp s))).count "Eigen/QR" = 1 ∧
      (lookup ECL_LINEAR_ALGEBRA_DENSE_HPP_
        (includeBoth env dense_hpp qr_hpp s).table).isSome = true ∧
      (lookup ECL_LINEAR_ALGEBRA_QR_HPP_
        (includeBoth env dense_hpp qr_hpp s).table).isSome = true) ∧
    (inclusions (emitted s (includeBoth env qr_hpp dense_hpp s)) =
        ["formatters.hpp", "Eigen/QR", "formatters.hpp", "Eigen/Dense"] ∧
      (inclusions (emitted s (includeBoth env qr_hpp dense_hpp s))).count "Eigen/Dense" = 1 ∧
      (inclusions (emitted s (includeBoth env qr_hpp dense_hpp s))).count "Eigen/QR" = 1 ∧
      (lookup ECL_LINEAR_ALGEBRA_DENSE_HPP_
        (includeBoth env qr_hpp dense_hpp s).table).isSome = true ∧
      (lookup ECL_LINEAR_ALGEBRA_QR_HPP_
        (includeBoth env qr_hpp dense_hpp s).table).isSome = true) := by
  obtain ⟨j1, d1, q1⟩ := both_fresh .dense .qr (by decide) env s hd hq he
  obtain ⟨j2, q2, d2⟩ := both_fresh .qr .dense (by decide) env s hq hd he
  have i1 : inclusions (emitted s (includeBoth env dense_hpp qr_hpp s)) =
      ["formatters.hpp", "Eigen/Dense", "formatters.hpp", "Eigen/QR"] := j1
  have i2 : inclusions (emitted s (includeBoth env qr_hpp dense_hpp s)) =
      ["formatters.hpp", "Eigen/QR", "formatters.hpp", "Eigen/Dense"] := j2
  refine ⟨⟨by decide, by decide, by decide⟩, ⟨i1, ?_, ?_, d1, q1⟩, ⟨i2, ?_, ?_, d2, q2⟩⟩
  · rw [i1]; decide
  · rw [i1]; decide
  · rw [i2]; decide
  · rw [i2]; decide

theorem guards_independent_witness :
    lookup ECL_LINEAR_ALGEBRA_DENSE_HPP_ otherPluginState.table = none ∧
      lookup ECL_LINEAR_ALGEBRA_QR_HPP_ otherPluginState.table = none ∧
      inclusions (emitted otherPluginState
          (includeBoth sampleEnv qr_hpp dense_hpp otherPluginState)) =
        ["formatters.hpp", "Eigen/QR", "formatters.hpp", "Eigen/Dense"] :=
  ⟨by decide, by decide,
    (guards_independent sampleEnv otherPluginState (by decide) (by decide)
      sampleEnv_respectsGuards).2.2.1⟩

end EclLinearAlgebra

